import Mathlib

/-!
Shallow embedding of the document ingestion and access-controlled retrieval
core of the repository (backend/app/services/document_service.py and
backend/app/core/vector_db/pinecone_client.py).

Conventions of the embedding:
- Python `Optional[str]` becomes `Option String`; Python truthiness on such a
  value (`if user_id:`) is `optTruthy` (false for `None` and for `""`).
- Python `Optional[List[float]]` embeddings become `Option (List Int)`;
  truthiness (`if chunk.embedding:`) is `optListTruthy` (false for `None` and
  for the empty list).  Similarity scores are modelled as integers: every
  claim about scores is order-theoretic only.
- Python dicts become association lists with unique keys; `assocGet` is
  `dict.get`, `assocSet` is item assignment, `assocDel` is `del`.
- The external Pinecone index is modelled as a list of stored vectors with
  upsert/delete/query operations mirroring Pinecone's documented semantics
  (`indexUpsert`, `indexDelete`, `indexQuery`), the query being parametrised
  by an arbitrary scoring function standing for cosine similarity.
- Exceptions become `Except String` results; raising records the message.
-/

/-- Python truthiness of an `Optional[str]`: `None` and `""` are falsy. -/
def optTruthy : Option String → Bool
  | none => false
  | some s => !(s == "")

/-- Python truthiness of an `Optional[List[float]]`: `None` and `[]` are falsy. -/
def optListTruthy : Option (List Int) → Bool
  | none => false
  | some l => !l.isEmpty

/-- Lookup in a Python-dict model (association list with unique keys). -/
def assocGet {α : Type} : List (String × α) → String → Option α
  | [], _ => none
  | (k, v) :: rest, key => if k == key then some v else assocGet rest key

/-- Item assignment in a Python-dict model: overwrites any previous binding. -/
def assocSet {α : Type} (m : List (String × α)) (key : String) (v : α) :
    List (String × α) :=
  m.filter (fun p => !(p.1 == key)) ++ [(key, v)]

/-- Item deletion in a Python-dict model. -/
def assocDel {α : Type} (m : List (String × α)) (key : String) :
    List (String × α) :=
  m.filter (fun p => !(p.1 == key))

/-- DocumentType enum from app/models/document.py. -/
inductive DocumentType
  | PDF | DOCX | TXT | HTML | MARKDOWN | PPTX | XLSX | XLS
deriving DecidableEq, Repr

/-- DocumentStatus enum from app/models/document.py. -/
inductive DocumentStatus
  | UPLOADED | PROCESSING | PROCESSED | EMBEDDED | ERROR
deriving DecidableEq, Repr

/-- AccessLevel enum from app/models/document.py. -/
inductive AccessLevel
  | PRIVATE | HIERARCHY | PUBLIC
deriving DecidableEq, Repr

/-- DocumentChunk model from app/models/document.py. -/
structure DocumentChunk where
  id : String
  content : String
  metadata : List (String × String) := []
  embedding : Option (List Int) := none
  user_id : Option String := none
deriving DecidableEq, Repr

/-- Document model from app/models/document.py (fields the core manipulates). -/
structure Document where
  id : String
  filename : String
  file_type : DocumentType
  chunks : List DocumentChunk := []
  status : DocumentStatus := DocumentStatus.UPLOADED
  user_id : Option String := none
  access_level : AccessLevel := AccessLevel.PRIVATE
  error_message : Option String := none
deriving DecidableEq, Repr

/-- DocumentProcessingStatus model from app/models/document.py.  The progress
percentage is the exact value the code computes (0, 25, 50 or 100). -/
structure DocumentProcessingStatus where
  document_id : String
  status : DocumentStatus
  chunks_count : Nat
  embedded_count : Nat
  error_message : Option String
  progress_percentage : Nat
deriving DecidableEq, Repr

/-- SearchResult model from app/models/search.py as populated by
PineconeClient.search_vectors. -/
structure SearchResult where
  chunk_id : String
  document_id : String
  content : String
  score : Int
  metadata : List (String × String)
deriving DecidableEq, Repr

/-- A vector as stored in the Pinecone index: the payload built by
PineconeClient.upsert_vectors (id, values, metadata). -/
structure VectorData where
  id : String
  values : List Int
  metadata : List (String × String)
deriving DecidableEq, Repr

/-- A match returned by the external `index.query` call. -/
structure QueryMatch where
  id : String
  score : Int
  metadata : List (String × String)
deriving DecidableEq, Repr

/-- Lookup of a stored vector by id in the modelled Pinecone index. -/
def indexLookup : List VectorData → String → Option VectorData
  | [], _ => none
  | v :: rest, i => if v.id == i then some v else indexLookup rest i

/-- Modelled from Pinecone's documented upsert semantics: writing a vector
under an id replaces any previously stored vector with that id. -/
def indexUpsertOne (idx : List VectorData) (v : VectorData) : List VectorData :=
  idx.filter (fun w => !(w.id == v.id)) ++ [v]

/-- Upsert of a batch, later entries overwriting earlier ones. -/
def indexUpsert (idx : List VectorData) (vs : List VectorData) : List VectorData :=
  vs.foldl indexUpsertOne idx

/-- Modelled from Pinecone's documented delete semantics: removes the vectors
whose ids are listed; absent ids are ignored. -/
def indexDelete (idx : List VectorData) (ids : List String) : List VectorData :=
  idx.filter (fun v => !(ids.contains v.id))

/-- Metadata payload built for one chunk in PineconeClient.upsert_vectors
(lines 102-112): the chunk metadata, a truncated content copy, and the
user_id key added only when `chunk.user_id` is truthy. -/
def chunkIndexMetadata (chunk : DocumentChunk) : List (String × String) :=
  let m := assocSet chunk.metadata "content" (chunk.content.take 1000)
  if optTruthy chunk.user_id then assocSet m "user_id" (chunk.user_id.getD "")
  else m

/-- Vector payload for one chunk (upsert_vectors lines 114-118). -/
def chunkVectorData (chunk : DocumentChunk) : VectorData :=
  { id := chunk.id
    values := chunk.embedding.getD []
    metadata := chunkIndexMetadata chunk }

/-- The vectors prepared by PineconeClient.upsert_vectors (lines 96-121):
chunks whose embedding is falsy (absent or empty) are skipped. -/
def prepareVectors (chunks : List DocumentChunk) : List VectorData :=
  chunks.filterMap (fun chunk =>
    if optListTruthy chunk.embedding then some (chunkVectorData chunk) else none)

/-- PineconeClient.upsert_vectors (lines 88-132), acting on the modelled
index state. -/
def upsert_vectors (idx : List VectorData) (chunks : List DocumentChunk) :
    List VectorData :=
  indexUpsert idx (prepareVectors chunks)

/-- Descending-score order used to model the ranking of query matches. -/
def scoreGE (a b : QueryMatch) : Prop := b.score ≤ a.score

instance : DecidableRel scoreGE := fun a b =>
  inferInstanceAs (Decidable (b.score ≤ a.score))

instance : IsTotal QueryMatch scoreGE := ⟨fun a b => Int.le_total b.score a.score⟩

instance : IsTrans QueryMatch scoreGE := ⟨fun _ _ _ h1 h2 => le_trans h2 h1⟩

/-- The match the backend reports for one stored vector, under a scoring
function standing for cosine similarity against the query vector. -/
def matchOfVector (score : VectorData → Int) (v : VectorData) : QueryMatch :=
  { id := v.id, score := score v, metadata := v.metadata }

/-- Modelled from Pinecone's documented query semantics: returns the stored
vectors scored against the query, ordered by descending score, truncated to
the requested `top_k`. -/
def indexQuery (idx : List VectorData) (score : VectorData → Int) (k : Nat) :
    List QueryMatch :=
  (List.insertionSort scoreGE (idx.map (matchOfVector score))).take k

/-- The number of candidates PineconeClient.search_vectors requests from the
backend (line 159: `top_k=top_k`); the adapter performs no over-fetch. -/
def pineconeQueryTopK (top_k : Nat) : Nat := top_k

/-- The visibility decision applied per match in search_vectors
(lines 177-188): when the caller id is truthy, a match whose stored
user_id is truthy and differs from the caller is skipped. -/
def matchVisible (user_id : Option String) (m : QueryMatch) : Bool :=
  if optTruthy user_id then
    let doc_user_id := assocGet m.metadata "user_id"
    !(optTruthy doc_user_id && !(doc_user_id.getD "" == user_id.getD ""))
  else true

/-- Conversion of a kept match to a SearchResult (lines 190-196). -/
def resultOfMatch (m : QueryMatch) : SearchResult :=
  { chunk_id := m.id
    document_id := (assocGet m.metadata "filename").getD "unknown"
    content := (assocGet m.metadata "content").getD ""
    score := m.score
    metadata := m.metadata }

/-- The post-processing loop of search_vectors (lines 164-201): keep matches
whose score meets the inclusive threshold and which pass the visibility
decision, in backend order. -/
def searchPostprocess (ms : List QueryMatch) (threshold : Int)
    (user_id : Option String) : List SearchResult :=
  (ms.filter
    (fun m => decide (threshold ≤ m.score) && matchVisible user_id m)).map
    resultOfMatch

/-- PineconeClient.search_vectors (lines 134-201) over the modelled index:
query the backend with exactly `pineconeQueryTopK top_k` candidates, then
post-filter by threshold and visibility. -/
def search_vectors (idx : List VectorData) (score : VectorData → Int)
    (top_k : Nat) (threshold : Int) (user_id : Option String) :
    List SearchResult :=
  searchPostprocess (indexQuery idx score (pineconeQueryTopK top_k)) threshold
    user_id

/-- State of the document service: the in-memory document registry
(`self.documents`), the modelled vector index behind the configured client,
and whether the embedder / vector db are configured (`self.embedder`,
`self.vector_db` being set). -/
structure ServiceState where
  documents : List (String × Document)
  index : List VectorData
  embedderConfigured : Bool
  vdbConfigured : Bool
deriving DecidableEq, Repr

/-- Mark a document as failed: the `except` blocks of the pipeline stages
set `status = ERROR` and record the triggering message verbatim. -/
def setDocError (st : ServiceState) (document_id : String) (msg : String) :
    ServiceState :=
  match assocGet st.documents document_id with
  | none => st
  | some document =>
      { st with
        documents := assocSet st.documents document_id
          { document with
            status := DocumentStatus.ERROR
            error_message := some msg } }

/-- DocumentService.create_document (lines 35-62).  The fresh uuid4 value is
passed in as `newId`; organization-level (PUBLIC) documents get no owner. -/
def create_document (st : ServiceState) (newId : String) (filename : String)
    (file_type : DocumentType) (user_id : String) (access_level : AccessLevel) :
    ServiceState × Document :=
  let assigned_user_id : Option String :=
    if access_level = AccessLevel.PUBLIC then none else some user_id
  let document : Document :=
    { id := newId
      filename := filename
      file_type := file_type
      chunks := []
      status := DocumentStatus.UPLOADED
      user_id := assigned_user_id
      access_level := access_level
      error_message := none }
  ({ st with documents := assocSet st.documents newId document }, document)

/-- DocumentService.process_document (lines 64-93), success path: the
external processor's output chunks are passed in as `producedChunks`; the
document is replaced by the processed document and marked PROCESSED. -/
def process_document (st : ServiceState) (document_id : String)
    (producedChunks : List DocumentChunk) : ServiceState × Except String Bool :=
  match assocGet st.documents document_id with
  | none => (st, Except.error ("Document " ++ document_id ++ " not found"))
  | some document =>
      let processed : Document :=
        { document with
          chunks := producedChunks
          status := DocumentStatus.PROCESSED }
      ({ st with documents := assocSet st.documents document_id processed },
        Except.ok true)

/-- Assignment of embeddings to chunks in embed_document (lines 114-116):
chunk `i` receives `embeddings[i]` when `i < len(embeddings)`, and keeps its
previous embedding field otherwise. -/
def assignEmbeddings : List DocumentChunk → List (List Int) → List DocumentChunk
  | [], _ => []
  | c :: cs, [] => c :: cs
  | c :: cs, e :: es => { c with embedding := some e } :: assignEmbeddings cs es

/-- DocumentService.embed_document (lines 95-126).  The external embedder's
output is passed in as `embeddings`; the error branches mirror the raised
ValueErrors and the `except` block that records the message on the document. -/
def embed_document (st : ServiceState) (document_id : String)
    (embeddings : List (List Int)) : ServiceState × Except String Bool :=
  match assocGet st.documents document_id with
  | none => (st, Except.error ("Document " ++ document_id ++ " not found"))
  | some document =>
      if !st.embedderConfigured then
        (setDocError st document_id "Embedder not configured",
          Except.error "Embedder not configured")
      else if document.chunks.isEmpty then
        (setDocError st document_id "No chunks to embed",
          Except.error "No chunks to embed")
      else
        let document := { document with
          chunks := assignEmbeddings document.chunks embeddings
          status := DocumentStatus.EMBEDDED }
        ({ st with documents := assocSet st.documents document_id document },
          Except.ok true)

/-- DocumentService.store_vectors (lines 128-164): upserts the chunks that
carry a truthy embedding into the vector index. -/
def store_vectors (st : ServiceState) (document_id : String) :
    ServiceState × Except String Bool :=
  match assocGet st.documents document_id with
  | none => (st, Except.error ("Document " ++ document_id ++ " not found"))
  | some document =>
      if !st.vdbConfigured then
        (setDocError st document_id "Vector database not configured",
          Except.error "Vector database not configured")
      else
        let embedded_chunks :=
          document.chunks.filter (fun c => optListTruthy c.embedding)
        if embedded_chunks.isEmpty then
          (setDocError st document_id "No embedded chunks to store",
            Except.error "No embedded chunks to store")
        else
          ({ st with index := upsert_vectors st.index embedded_chunks },
            Except.ok true)

/-- DocumentService.process_and_embed_document (lines 166-187): the three
stages in sequence, stopping at the first failure. -/
def process_and_embed_document (st : ServiceState) (document_id : String)
    (producedChunks : List DocumentChunk) (embeddings : List (List Int)) :
    ServiceState × Except String Bool :=
  let (st1, r1) := process_document st document_id producedChunks
  match r1 with
  | Except.error e => (st1, Except.error e)
  | Except.ok _ =>
      let (st2, r2) := embed_document st1 document_id embeddings
      match r2 with
      | Except.error e => (st2, Except.error e)
      | Except.ok _ => store_vectors st2 document_id

/-- DocumentService.get_document (lines 233-240): when the caller id is
truthy, a document owned by a different user is reported as absent. -/
def get_document (st : ServiceState) (document_id : String)
    (user_id : Option String) : Option Document :=
  match assocGet st.documents document_id with
  | none => none
  | some document =>
      if optTruthy user_id then
        if document.user_id ≠ some (user_id.getD "") ∧ document.user_id ≠ none
        then none
        else some document
      else some document

/-- Progress mapping of get_document_status (lines 249-260). -/
def statusProgress : DocumentStatus → Nat
  | DocumentStatus.UPLOADED => 0
  | DocumentStatus.PROCESSING => 25
  | DocumentStatus.PROCESSED => 50
  | DocumentStatus.EMBEDDED => 100
  | DocumentStatus.ERROR => 0

/-- DocumentService.get_document_status (lines 242-269). -/
def get_document_status (st : ServiceState) (document_id : String)
    (user_id : Option String) : Option DocumentProcessingStatus :=
  match get_document st document_id user_id with
  | none => none
  | some document =>
      some
        { document_id := document_id
          status := document.status
          chunks_count := document.chunks.length
          embedded_count :=
            (document.chunks.filter (fun c => optListTruthy c.embedding)).length
          error_message := document.error_message
          progress_percentage := statusProgress document.status }

/-- DocumentService.delete_document (lines 340-357): an inaccessible or
unknown document yields `false`; otherwise the document's chunk ids are
deleted from the index (when a vector db is configured and the chunk list is
non-empty) and the record is removed from the registry. -/
def delete_document (st : ServiceState) (document_id : String)
    (user_id : Option String) : ServiceState × Bool :=
  match get_document st document_id user_id with
  | none => (st, false)
  | some document =>
      let st1 :=
        if st.vdbConfigured && !document.chunks.isEmpty then
          { st with
            index := indexDelete st.index (document.chunks.map (fun c => c.id)) }
        else st
      ({ st1 with documents := assocDel st1.documents document_id }, true)

/-- Concrete stored vector owned by "bob", as produced for a private chunk. -/
def vecBob : VectorData :=
  ⟨"b", [1], [("user_id", "bob"), ("filename", "doc.txt"), ("content", "hello")]⟩

/-- Concrete stored vector owned by "alice". -/
def vecAlice : VectorData :=
  ⟨"a", [1], [("user_id", "alice"), ("filename", "a.txt"), ("content", "hi")]⟩

/-- Concrete stored vector whose user_id metadata value is the empty string. -/
def vecEmptyOwner : VectorData := ⟨"e", [1], [("user_id", "")]⟩

/-- Concrete scoring function ranking `vecBob` above everything else. -/
def scoreBobFirst : VectorData → Int := fun v => if v.id == "b" then 10 else 5

/-- Concrete processed document of user "u1" with one unembedded chunk. -/
def docOneChunk : Document :=
  { id := "d"
    filename := "f.txt"
    file_type := DocumentType.TXT
    chunks := [{ id := "c1", content := "hello", user_id := some "u1" }]
    status := DocumentStatus.PROCESSED
    user_id := some "u1" }

/-- Concrete service state holding `docOneChunk` and an empty index. -/
def stOneChunk : ServiceState := ⟨[("d", docOneChunk)], [], true, true⟩

/-- Concrete processed document of user "u1" with zero chunks. -/
def docNoChunks : Document :=
  { id := "z"
    filename := "z.txt"
    file_type := DocumentType.TXT
    chunks := []
    status := DocumentStatus.PROCESSED
    user_id := some "u1" }

/-- Concrete service state holding `docNoChunks`. -/
def stNoChunks : ServiceState := ⟨[("z", docNoChunks)], [], true, true⟩

/-- Concrete chunkless-in-index state: document of "alice" with no chunks. -/
def docAlice : Document :=
  { id := "d"
    filename := "f.txt"
    file_type := DocumentType.TXT
    user_id := some "alice" }

/-- Concrete service state holding `docAlice`. -/
def stAlice : ServiceState := ⟨[("d", docAlice)], [], true, true⟩

/-- Concrete state where `docOneChunk`'s chunk "c1" is stored in the index. -/
def stStored : ServiceState :=
  ⟨[("d", docOneChunk)], [⟨"c1", [1], [("user_id", "u1")]⟩], true, true⟩

/-- Concrete chunk whose owner field is the empty string. -/
def chunkEmptyOwner : DocumentChunk :=
  { id := "c1", content := "x", embedding := some [1], user_id := some "" }

lemma assocGet_append {α : Type} (l1 l2 : List (String × α)) (key : String) :
    assocGet (l1 ++ l2) key =
      match assocGet l1 key with
      | some v => some v
      | none => assocGet l2 key := by
  induction l1 with
  | nil => simp [assocGet]
  | cons p rest ih =>
      obtain ⟨k, v⟩ := p
      by_cases h : k = key
      · simp [assocGet, h]
      · simp [assocGet, h, ih]

lemma assocGet_filter_self {α : Type} (m : List (String × α)) (key : String) :
    assocGet (m.filter (fun p => !(p.1 == key))) key = none := by
  induction m with
  | nil => simp [assocGet]
  | cons p rest ih =>
      obtain ⟨k, v⟩ := p
      rw [List.filter_cons]
      by_cases h : k = key
      · simp [h, ih]
      · simp [h, assocGet, ih]

lemma assocGet_filter_ne {α : Type} (m : List (String × α)) (key key' : String)
    (h : key' ≠ key) :
    assocGet (m.filter (fun p => !(p.1 == key))) key' = assocGet m key' := by
  induction m with
  | nil => simp
  | cons p rest ih =>
      obtain ⟨k, v⟩ := p
      rw [List.filter_cons]
      by_cases hk : k = key
      · subst hk
        simp [assocGet, Ne.symm h, ih]
      · by_cases hk' : k = key'
        · simp [assocGet, hk, hk', h]
        · simp [assocGet, hk, hk', ih]

lemma assocGet_assocSet_self {α : Type} (m : List (String × α)) (key : String)
    (v : α) : assocGet (assocSet m key v) key = some v := by
  simp [assocSet, assocGet_append, assocGet_filter_self, assocGet]

lemma assocGet_assocSet_ne {α : Type} (m : List (String × α)) (key key' : String)
    (v : α) (h : key' ≠ key) :
    assocGet (assocSet m key v) key' = assocGet m key' := by
  simp only [assocSet, assocGet_append, assocGet_filter_ne m key key' h, assocGet, h,
    beq_iff_eq]
  cases assocGet m key' <;> simp [assocGet, Ne.symm h]

lemma assocGet_assocDel_self {α : Type} (m : List (String × α)) (key : String) :
    assocGet (assocDel m key) key = none :=
  assocGet_filter_self m key

lemma assocGet_assocDel_ne {α : Type} (m : List (String × α)) (key key' : String)
    (h : key' ≠ key) : assocGet (assocDel m key) key' = assocGet m key' :=
  assocGet_filter_ne m key key' h

lemma indexLookup_append (l1 l2 : List VectorData) (i : String) :
    indexLookup (l1 ++ l2) i =
      match indexLookup l1 i with
      | some v => some v
      | none => indexLookup l2 i := by
  induction l1 with
  | nil => simp [indexLookup]
  | cons v rest ih =>
      by_cases h : v.id = i
      · simp [indexLookup, h]
      · simp [indexLookup, h, ih]

lemma indexLookup_filter_self (idx : List VectorData) (i : String) :
    indexLookup (idx.filter (fun w => !(w.id == i))) i = none := by
  induction idx with
  | nil => simp [indexLookup]
  | cons v rest ih =>
      rw [List.filter_cons]
      by_cases h : v.id = i
      · simp [h, ih]
      · simp [h, indexLookup, ih]

lemma indexLookup_upsertOne_self (idx : List VectorData) (v : VectorData) :
    indexLookup (indexUpsertOne idx v) v.id = some v := by
  simp [indexUpsertOne, indexLookup_append, indexLookup_filter_self, indexLookup]

lemma indexUpsert_append_singleton (idx : List VectorData) (vs : List VectorData)
    (v : VectorData) :
    indexUpsert idx (vs ++ [v]) = indexUpsertOne (indexUpsert idx vs) v := by
  simp [indexUpsert, List.foldl_append]

lemma mem_indexDelete {idx : List VectorData} {ids : List String}
    {v : VectorData} (h : v ∈ indexDelete idx ids) :
    v ∈ idx ∧ ids.contains v.id = false := by
  have h' := List.mem_filter.mp h
  refine ⟨h'.1, ?_⟩
  simpa using h'.2

lemma searchResult_from_index {idx : List VectorData} {score : VectorData → Int}
    {k : Nat} {threshold : Int} {u : Option String} {r : SearchResult}
    (h : r ∈ search_vectors idx score k threshold u) :
    ∃ v ∈ idx, r.chunk_id = v.id := by
  simp only [search_vectors, searchPostprocess, List.mem_map] at h
  obtain ⟨m, hm, hr⟩ := h
  have hm1 : m ∈ indexQuery idx score (pineconeQueryTopK k) :=
    List.mem_of_mem_filter hm
  have hm2 : m ∈ List.insertionSort scoreGE (idx.map (matchOfVector score)) :=
    (List.take_sublist _ _).mem hm1
  have hm3 : m ∈ idx.map (matchOfVector score) :=
    (List.perm_insertionSort scoreGE _).mem_iff.mp hm2
  obtain ⟨v, hv, hvm⟩ := List.mem_map.mp hm3
  exact ⟨v, hv, by rw [← hr, ← hvm]; rfl⟩

lemma filter_eq_self_of_assocGet_none {α : Type} {m : List (String × α)}
    {key : String} (h : assocGet m key = none) :
    m.filter (fun p => !(p.1 == key)) = m := by
  induction m with
  | nil => rfl
  | cons p rest ih =>
      obtain ⟨k, v⟩ := p
      rw [List.filter_cons]
      by_cases hk : k = key
      · simp [assocGet, hk] at h
      · simp only [assocGet, hk, beq_iff_eq, if_false] at h
        simp [hk, ih h]

lemma indexLookup_indexDelete {idx : List VectorData} {ids : List String}
    {i : String} (h : ids.contains i = true) :
    indexLookup (indexDelete idx ids) i = none := by
  induction idx with
  | nil => rfl
  | cons v rest ih =>
      rw [indexDelete, List.filter_cons]
      by_cases hv : v.id = i
      · rw [hv, h]
        simpa [indexDelete] using ih
      · by_cases hc : ids.contains v.id
        · rw [hc]
          simpa [indexDelete] using ih
        · simp only [hc, Bool.not_false, if_true, indexLookup, hv, beq_iff_eq,
            if_false]
          simpa [indexDelete] using ih

lemma id_ne_of_indexLookup_none {idx : List VectorData} {i : String}
    (h : indexLookup idx i = none) : ∀ v ∈ idx, v.id ≠ i := by
  induction idx with
  | nil => intro v hv; cases hv
  | cons w rest ih =>
      intro v hv
      rw [indexLookup] at h
      by_cases hw : w.id = i
      · simp [hw] at h
      · rcases List.mem_cons.mp hv with rfl | hv'
        · exact hw
        · exact ih (by simpa [hw] using h) v hv'

lemma assignEmbeddings_all_truthy :
    ∀ (cs : List DocumentChunk) (es : List (List Int)),
      cs.length ≤ es.length → (∀ e ∈ es, e ≠ []) →
      ∀ c ∈ assignEmbeddings cs es, optListTruthy c.embedding = true := by
  intro cs
  induction cs with
  | nil => intro es _ _ c hc; cases hc
  | cons c0 cs ih =>
      intro es hlen hne c hc
      cases es with
      | nil => simp at hlen
      | cons e es =>
          rw [assignEmbeddings] at hc
          rcases List.mem_cons.mp hc with rfl | hc
          · have he : e ≠ [] := hne e (by simp)
            simp [optListTruthy, List.isEmpty_iff, he]
          · exact ih es (by simpa using Nat.le_of_succ_le_succ hlen)
              (fun x hx => hne x (by simp [hx])) c hc

/-- C5: create_document always succeeds, registers the document under the
fresh id with status UPLOADED while leaving every other registry entry
unchanged, and assigns a null owner if and only if the access level is
organization-wide (PUBLIC); for PRIVATE and HIERARCHY the owner is the
supplied user id. -/
theorem create_document_spec (st : ServiceState) (newId fname : String)
    (ft : DocumentType) (uid : String) (al : AccessLevel)
    (hfresh : assocGet st.documents newId = none) :
    assocGet (create_document st newId fname ft uid al).1.documents newId =
      some (create_document st newId fname ft uid al).2 ∧
    (create_document st newId fname ft uid al).2.id = newId ∧
    (create_document st newId fname ft uid al).2.status =
      DocumentStatus.UPLOADED ∧
    ((create_document st newId fname ft uid al).2.user_id = none ↔
      al = AccessLevel.PUBLIC) ∧
    (al ≠ AccessLevel.PUBLIC →
      (create_document st newId fname ft uid al).2.user_id = some uid) ∧
    (create_document st newId fname ft uid al).1.documents.length =
      st.documents.length + 1 ∧
    ∀ k, k ≠ newId →
      assocGet (create_document st newId fname ft uid al).1.documents k =
        assocGet st.documents k := by
  refine ⟨?_, rfl, rfl, ?_, ?_, ?_, ?_⟩
  · simp [create_document, assocGet_assocSet_self]
  · unfold create_document
    by_cases h : al = AccessLevel.PUBLIC <;> simp [h]
  · intro h
    simp [create_document, h]
  · simp [create_document, assocSet, filter_eq_self_of_assocGet_none hfresh]
  · intro k hk
    simpa [create_document] using
      assocGet_assocSet_ne st.documents newId k _ hk

/-- Witness for C5 at a concrete call for each relevant access level. -/
theorem create_document_spec_witness :
    (create_document ⟨[], [], true, true⟩ "id1" "a.txt" DocumentType.TXT "u1"
        AccessLevel.PRIVATE).2.user_id = some "u1" ∧
    (create_document ⟨[], [], true, true⟩ "id1" "a.txt" DocumentType.TXT "u1"
        AccessLevel.PUBLIC).2.user_id = none ∧
    (create_document ⟨[], [], true, true⟩ "id1" "a.txt" DocumentType.TXT "u1"
        AccessLevel.PRIVATE).2.status = DocumentStatus.UPLOADED := by
  refine ⟨?_, ?_, ?_⟩
  · exact (create_document_spec ⟨[], [], true, true⟩ "id1" "a.txt"
      DocumentType.TXT "u1" AccessLevel.PRIVATE rfl).2.2.2.2.1 (by decide)
  · exact ((create_document_spec ⟨[], [], true, true⟩ "id1" "a.txt"
      DocumentType.TXT "u1" AccessLevel.PUBLIC rfl).2.2.2.1).mpr rfl
  · exact (create_document_spec ⟨[], [], true, true⟩ "id1" "a.txt"
      DocumentType.TXT "u1" AccessLevel.PRIVATE rfl).2.2.1

/-- C3 fails on the code: search_vectors issues the backend query with
exactly `top_k` candidates (line 159), never more, and the post-hoc
visibility filter can therefore leave the caller with zero results even
though a visible candidate above the threshold is stored in the index (here
caller "alice" gets nothing for top_k = 1 although her own chunk is stored
and is returned when top_k = 2). -/
theorem c3_counterexample :
    ¬ 1 < pineconeQueryTopK 1 ∧
    search_vectors [vecBob, vecAlice] scoreBobFirst 1 0 (some "alice") = [] ∧
    search_vectors [vecBob, vecAlice] scoreBobFirst 2 0 (some "alice") =
      [⟨"a", "a.txt", "hi", 5,
        [("user_id", "alice"), ("filename", "a.txt"), ("content", "hi")]⟩] := by
  refine ⟨by decide, by decide, by decide⟩

/-- C3 amended: the Pinecone adapter does not over-fetch — it requests
exactly `top_k` candidates from the backend and applies post-hoc visibility
filtering, so after filtering the caller may receive fewer than `top_k`
results, possibly zero even when visible candidates remain in the index. -/
theorem pinecone_no_overfetch :
    (∀ top_k : Nat, pineconeQueryTopK top_k = top_k) ∧
    search_vectors [vecBob, vecAlice] scoreBobFirst 1 0 (some "alice") = [] :=
  ⟨fun _ => rfl, by decide⟩

/-- C9: a chunk lacking an embedding contributes nothing to the upsert (the
index is exactly what the rest of the batch produces, so the chunk is never
stored with a null vector), and a chunk carrying an embedding, as the
batch's latest entry for its id, ends up stored with exactly its new values
and metadata, overwriting any previously stored vector under that id. -/
theorem upsert_skip_and_overwrite (idx : List VectorData)
    (cs : List DocumentChunk) (c : DocumentChunk) :
    (optListTruthy c.embedding = false →
      upsert_vectors idx (cs ++ [c]) = upsert_vectors idx cs) ∧
    (optListTruthy c.embedding = true →
      indexLookup (upsert_vectors idx (cs ++ [c])) c.id =
        some (chunkVectorData c)) := by
  constructor
  · intro h
    simp [upsert_vectors, prepareVectors, h]
  · intro h
    have hprep : prepareVectors (cs ++ [c]) =
        prepareVectors cs ++ [chunkVectorData c] := by
      simp [prepareVectors, h]
    rw [upsert_vectors, hprep, indexUpsert_append_singleton]
    exact indexLookup_upsertOne_self (indexUpsert idx (prepareVectors cs))
      (chunkVectorData c)

/-- Witness for C9: an embedding-less chunk leaves a prior vector intact,
and an embedded chunk with the same id replaces the prior vector and
metadata. -/
theorem upsert_skip_and_overwrite_witness :
    upsert_vectors [⟨"c1", [5], [("content", "old")]⟩]
      [{ id := "c1", content := "x", embedding := none }] =
      [⟨"c1", [5], [("content", "old")]⟩] ∧
    indexLookup
      (upsert_vectors [⟨"c1", [5], [("content", "old")]⟩]
        [{ id := "c1", content := "new", embedding := some [9] }]) "c1" =
      some ⟨"c1", [9], [("content", "new")]⟩ := by
  constructor
  · exact (upsert_skip_and_overwrite [⟨"c1", [5], [("content", "old")]⟩] []
      { id := "c1", content := "x", embedding := none }).1 rfl
  · have h := (upsert_skip_and_overwrite [⟨"c1", [5], [("content", "old")]⟩] []
      { id := "c1", content := "new", embedding := some [9] }).2 rfl
    have hv : chunkVectorData
        { id := "c1", content := "new", embedding := some [9] } =
        ⟨"c1", [9], [("content", "new")]⟩ := by
      simp [chunkVectorData, chunkIndexMetadata, assocSet, optTruthy,
        String.take_eq]
    rw [hv] at h
    exact h

/-- C10: a chunk whose user_id is the empty string (a falsy non-null value)
is stored by upsert_vectors with no user_id key in its index metadata, so
the stored chunk is indistinguishable from an organization-wide one and a
search over the resulting index returns it to an arbitrary caller. -/
theorem falsy_owner_stored_as_org (c : DocumentChunk) (u : Option String)
    (k : Nat) (threshold : Int) (score : VectorData → Int)
    (h1 : c.user_id = some "") (h2 : optListTruthy c.embedding = true)
    (h3 : assocGet c.metadata "user_id" = none) (h4 : 0 < k)
    (h5 : threshold ≤ score (chunkVectorData c)) :
    assocGet (chunkIndexMetadata c) "user_id" = none ∧
    search_vectors (upsert_vectors [] [c]) score k threshold u =
      [resultOfMatch (matchOfVector score (chunkVectorData c))] := by
  have hmeta : assocGet (chunkIndexMetadata c) "user_id" = none := by
    rw [chunkIndexMetadata, h1]
    simpa [optTruthy] using
      (assocGet_assocSet_ne c.metadata "content" "user_id"
        (c.content.take 1000) (by decide)).trans h3
  refine ⟨hmeta, ?_⟩
  have hidx : upsert_vectors [] [c] = [chunkVectorData c] := by
    simp [upsert_vectors, prepareVectors, h2, indexUpsert, indexUpsertOne]
  obtain ⟨k', rfl⟩ := Nat.exists_eq_add_of_lt h4
  rw [hidx]
  have hq : indexQuery [chunkVectorData c] score
      (pineconeQueryTopK (0 + k' + 1)) =
      [matchOfVector score (chunkVectorData c)] := by
    simp [indexQuery, pineconeQueryTopK, List.insertionSort]
  rw [search_vectors, hq, searchPostprocess]
  have hvis : matchVisible u (matchOfVector score (chunkVectorData c)) = true := by
    rw [matchVisible]
    cases u with
    | none => simp [optTruthy]
    | some s =>
        by_cases hs : s = ""
        · simp [optTruthy, hs]
        · simp [optTruthy, hs, matchOfVector, chunkVectorData, hmeta]
  have hscore : decide (threshold ≤
      (matchOfVector score (chunkVectorData c)).score) = true := by
    simpa [matchOfVector] using h5
  simp [List.filter, hscore, hvis]

/-- Witness for C10: the concrete chunk with owner "" is stored without a
user_id key and search returns it to caller "zed". -/
theorem falsy_owner_stored_as_org_witness :
    assocGet (chunkIndexMetadata chunkEmptyOwner) "user_id" = none ∧
    search_vectors (upsert_vectors [] [chunkEmptyOwner]) (fun _ => 3) 5 0
      (some "zed") = [⟨"c1", "unknown", "x", 3, [("content", "x")]⟩] := by
  have h := falsy_owner_stored_as_org chunkEmptyOwner (some "zed") 5 0
    (fun _ => 3) rfl rfl rfl (by decide) (by decide)
  have hr : resultOfMatch
      (matchOfVector (fun _ => 3) (chunkVectorData chunkEmptyOwner)) =
      ⟨"c1", "unknown", "x", 3, [("content", "x")]⟩ := by
    simp [resultOfMatch, matchOfVector, chunkVectorData, chunkIndexMetadata,
      chunkEmptyOwner, assocSet, optTruthy, String.take_eq, assocGet]
  rw [hr] at h
  exact h

/-- C6: a document reaching the embedding stage with zero chunks makes
embed_document fail with "No chunks to embed" instead of succeeding; the
document's status becomes ERROR with that message recorded verbatim, and a
subsequent get_document_status by the owner reports progress 0 and the
message. -/
theorem embed_no_chunks_error (st : ServiceState) (id u : String)
    (doc : Document) (embeddings : List (List Int))
    (hdoc : assocGet st.documents id = some doc)
    (hchunks : doc.chunks = [])
    (hconf : st.embedderConfigured = true)
    (howner : doc.user_id = some u) :
    (embed_document st id embeddings).2 = Except.error "No chunks to embed" ∧
    assocGet (embed_document st id embeddings).1.documents id =
      some { doc with
             status := DocumentStatus.ERROR
             error_message := some "No chunks to embed" } ∧
    get_document_status (embed_document st id embeddings).1 id (some u) =
      some { document_id := id
             status := DocumentStatus.ERROR
             chunks_count := 0
             embedded_count := 0
             error_message := some "No chunks to embed"
             progress_percentage := 0 } := by
  have hres : embed_document st id embeddings =
      (setDocError st id "No chunks to embed",
        Except.error "No chunks to embed") := by
    rw [embed_document, hdoc]
    simp [hconf, hchunks]
  have herr : setDocError st id "No chunks to embed" =
      { st with
        documents := assocSet st.documents id
          { doc with
            status := DocumentStatus.ERROR
            error_message := some "No chunks to embed" } } := by
    rw [setDocError, hdoc]
  have hget : assocGet (embed_document st id embeddings).1.documents id =
      some { doc with
             status := DocumentStatus.ERROR
             error_message := some "No chunks to embed" } := by
    rw [hres, herr]
    exact assocGet_assocSet_self _ _ _
  refine ⟨by rw [hres], hget, ?_⟩
  have hacc : get_document (embed_document st id embeddings).1 id (some u) =
      some { doc with
             status := DocumentStatus.ERROR
             error_message := some "No chunks to embed" } := by
    rw [get_document, hget]
    by_cases hu : u = ""
    · simp [optTruthy, hu]
    · simp [optTruthy, hu, howner]
  rw [get_document_status, hacc]
  simp [hchunks, statusProgress]

/-- Witness for C6 on the concrete zero-chunk document of user "u1". -/
theorem embed_no_chunks_error_witness :
    (embed_document stNoChunks "z" []).2 =
      Except.error "No chunks to embed" ∧
    get_document_status (embed_document stNoChunks "z" []).1 "z"
      (some "u1") =
      some { document_id := "z"
             status := DocumentStatus.ERROR
             chunks_count := 0
             embedded_count := 0
             error_message := some "No chunks to embed"
             progress_percentage := 0 } := by
  have h := embed_no_chunks_error stNoChunks "z" "u1" docNoChunks [] rfl rfl
    rfl rfl
  exact ⟨h.1, h.2.2⟩

/-- C8 fails on the code as universally stated: the caller id "" is non-null
and differs from the document's non-null owner "alice", yet the truthiness
guard in get_document skips the access check, so get_document_status reveals
the document's status and delete_document deletes the other user's document
and returns True instead of reporting absence. -/
theorem c8_counterexample :
    ("" : String) ≠ "alice" ∧
    get_document_status stAlice "d" (some "") ≠ none ∧
    (delete_document stAlice "d" (some "")).2 = true ∧
    assocGet (delete_document stAlice "d" (some "")).1.documents "d" =
      none := by
  refine ⟨by decide, by decide, by decide, by decide⟩

/-- C8 amended: for every caller with a non-empty id who cannot access a
document (stored owner non-null and different from the caller), get_document
and get_document_status report absence and delete_document returns false
leaving the state unchanged; no access-denied error is raised (the
operations are total and never produce an error value). -/
theorem denial_as_absent (st : ServiceState) (id u o : String)
    (doc : Document)
    (hdoc : assocGet st.documents id = some doc)
    (howner : doc.user_id = some o)
    (hne : o ≠ u) (hu : u ≠ "") :
    get_document st id (some u) = none ∧
    get_document_status st id (some u) = none ∧
    delete_document st id (some u) = (st, false) := by
  have hget : get_document st id (some u) = none := by
    rw [get_document, hdoc]
    simp [optTruthy, hu, howner, hne]
  exact ⟨hget, by rw [get_document_status, hget], by rw [delete_document, hget]⟩

/-- Witness for C8 amended: caller "bob" cannot see or delete the document
owned by "alice". -/
theorem denial_as_absent_witness :
    get_document stAlice "d" (some "bob") = none ∧
    get_document_status stAlice "d" (some "bob") = none ∧
    delete_document stAlice "d" (some "bob") = (stAlice, false) :=
  denial_as_absent stAlice "d" "bob" "alice" docAlice rfl rfl (by decide)
    (by decide)

/-- C1 fails on the code as stated for all non-null caller ids: the caller
id "" is non-null, yet the truthiness guard `if user_id:` disables the
visibility filter, so a result whose stored owner is "bob" (present and
different from "") is returned; moreover a stored owner that is present but
empty is returned to the unrelated caller "alice". -/
theorem c1_counterexample :
    some "" ≠ (none : Option String) ∧
    search_vectors [vecBob] (fun _ => 10) 5 0 (some "") =
      [⟨"b", "doc.txt", "hello", 10,
        [("user_id", "bob"), ("filename", "doc.txt"), ("content", "hello")]⟩] ∧
    ("bob" : String) ≠ "" ∧
    search_vectors [vecEmptyOwner] (fun _ => 10) 5 0 (some "alice") =
      [⟨"e", "unknown", "", 10, [("user_id", "")]⟩] ∧
    ("" : String) ≠ "alice" := by
  refine ⟨by decide, by decide, by decide, by decide, by decide⟩

/-- C1 amended: for every search call whose caller id is truthy (non-null
and non-empty), every returned result's stored owner id is absent, empty, or
equal to the caller id; a candidate whose stored owner id is non-empty and
differs from the caller id is discarded from the result sequence. -/
theorem search_owner_visibility (idx : List VectorData)
    (score : VectorData → Int) (k : Nat) (threshold : Int) (u : String)
    (hu : u ≠ "") :
    ∀ r ∈ search_vectors idx score k threshold (some u),
      assocGet r.metadata "user_id" = none ∨
      assocGet r.metadata "user_id" = some "" ∨
      assocGet r.metadata "user_id" = some u := by
  intro r hr
  simp only [search_vectors, searchPostprocess, List.mem_map] at hr
  obtain ⟨m, hm, hrm⟩ := hr
  have hkeep := (List.mem_filter.mp hm).2
  simp only [Bool.and_eq_true] at hkeep
  have hvis : matchVisible (some u) m = true := hkeep.2
  have hmeta : r.metadata = m.metadata := by
    rw [← hrm]
    rfl
  rw [hmeta]
  rw [matchVisible] at hvis
  have hut : optTruthy (some u) = true := by simp [optTruthy, hu]
  rw [hut] at hvis
  simp only [if_true] at hvis
  cases hd : assocGet m.metadata "user_id" with
  | none => exact Or.inl rfl
  | some s =>
      by_cases hs : s = ""
      · exact Or.inr (Or.inl (by rw [hs]))
      · by_cases hsu : s = u
        · exact Or.inr (Or.inr (by rw [hsu]))
        · exfalso
          rw [hd] at hvis
          simp [optTruthy, hs, hsu] at hvis

/-- Witness for C1 amended: caller "alice" searching an index holding her
own chunk receives a result whose stored owner is "alice". -/
theorem search_owner_visibility_witness :
    assocGet (⟨"a", "a.txt", "hi", 5,
      [("user_id", "alice"), ("filename", "a.txt"), ("content", "hi")]⟩ :
        SearchResult).metadata "user_id" = none ∨
    assocGet (⟨"a", "a.txt", "hi", 5,
      [("user_id", "alice"), ("filename", "a.txt"), ("content", "hi")]⟩ :
        SearchResult).metadata "user_id" = some "" ∨
    assocGet (⟨"a", "a.txt", "hi", 5,
      [("user_id", "alice"), ("filename", "a.txt"), ("content", "hi")]⟩ :
        SearchResult).metadata "user_id" = some "alice" :=
  search_owner_visibility [vecAlice] scoreBobFirst 5 0 "alice" (by decide) _
    (by decide)

/-- C4: search results are ordered by descending similarity score, number at
most `top_k` (fewer is possible, never more), and every returned result's
score meets the inclusive `score_threshold` lower bound. -/
theorem search_ordered_bounded_threshold (idx : List VectorData)
    (score : VectorData → Int) (k : Nat) (threshold : Int)
    (u : Option String) :
    List.Sorted (fun a b : SearchResult => b.score ≤ a.score)
      (search_vectors idx score k threshold u) ∧
    (search_vectors idx score k threshold u).length ≤ k ∧
    ∀ r ∈ search_vectors idx score k threshold u, threshold ≤ r.score := by
  refine ⟨?_, ?_, ?_⟩
  · have hs1 : List.Sorted scoreGE
        (List.insertionSort scoreGE (idx.map (matchOfVector score))) :=
      List.sorted_insertionSort scoreGE _
    have hs2 : List.Sorted scoreGE (indexQuery idx score (pineconeQueryTopK k)) :=
      List.Pairwise.sublist (List.take_sublist _ _) hs1
    have hs3 := hs2.filter
      (fun m => decide (threshold ≤ m.score) && matchVisible u m)
    exact List.Pairwise.map resultOfMatch (fun a b h => h) hs3
  · rw [search_vectors, searchPostprocess, List.length_map]
    calc (List.filter _ (indexQuery idx score (pineconeQueryTopK k))).length
        ≤ (indexQuery idx score (pineconeQueryTopK k)).length :=
          List.length_filter_le _ _
      _ ≤ k := by
          rw [indexQuery]
          exact List.length_take_le _ _
  · intro r hr
    simp only [search_vectors, searchPostprocess, List.mem_map] at hr
    obtain ⟨m, hm, hrm⟩ := hr
    have hkeep := (List.mem_filter.mp hm).2
    simp only [Bool.and_eq_true] at hkeep
    have hsc : decide (threshold ≤ m.score) = true := hkeep.1
    have : r.score = m.score := by
      rw [← hrm]
      rfl
    rw [this]
    exact of_decide_eq_true hsc

/-- Witness for C4 on a concrete two-vector index. -/
theorem search_ordered_bounded_threshold_witness :
    (search_vectors [vecBob, vecAlice] scoreBobFirst 2 0 none).length ≤ 2 ∧
    (0 : Int) ≤ (⟨"b", "doc.txt", "hello", 10,
      [("user_id", "bob"), ("filename", "doc.txt"), ("content", "hello")]⟩ :
        SearchResult).score := by
  have h := search_ordered_bounded_threshold [vecBob, vecAlice] scoreBobFirst
    2 0 none
  exact ⟨h.2.1, h.2.2 _ (by decide)⟩

/-- C2 fails on the code: embed_document (called between the process and
store stages of process_and_embed_document) sets the status to EMBEDDED
immediately after assigning embeddings, before any vector-index upsert has
happened — here the call succeeds, the status is EMBEDDED, yet the index is
still empty and the chunk "c1" is not stored; moreover when the embedder
returns no vectors the status still becomes EMBEDDED while the chunk carries
no embedding at all. -/
theorem c2_counterexample :
    (embed_document stOneChunk "d" [[7]]).2 = Except.ok true ∧
    (assocGet (embed_document stOneChunk "d" [[7]]).1.documents "d").map
      Document.status = some DocumentStatus.EMBEDDED ∧
    (embed_document stOneChunk "d" [[7]]).1.index = [] ∧
    indexLookup (embed_document stOneChunk "d" [[7]]).1.index "c1" = none ∧
    (assocGet (embed_document stOneChunk "d" []).1.documents "d").map
      Document.status = some DocumentStatus.EMBEDDED ∧
    (assocGet (embed_document stOneChunk "d" []).1.documents "d").map
      (fun d => d.chunks.map DocumentChunk.embedding) = some [none] := by
  refine ⟨rfl, rfl, rfl, rfl, rfl, rfl⟩

/-- C2 amended: provided the embedder returns one non-empty vector per chunk,
a successful embed_document run leaves the document EMBEDDED with every
chunk carrying a non-empty embedding; the PROCESSED to EMBEDDED transition
happens at embedding assignment and before the vector-index upsert — the
index is untouched at the transition, upsert success being established only
by the later store stage. -/
theorem embedded_status_invariant (st : ServiceState) (id : String)
    (doc : Document) (embeddings : List (List Int))
    (hdoc : assocGet st.documents id = some doc)
    (hconf : st.embedderConfigured = true)
    (hne : doc.chunks ≠ [])
    (hlen : doc.chunks.length ≤ embeddings.length)
    (hnonempty : ∀ e ∈ embeddings, e ≠ []) :
    (embed_document st id embeddings).2 = Except.ok true ∧
    assocGet (embed_document st id embeddings).1.documents id =
      some { doc with
             chunks := assignEmbeddings doc.chunks embeddings
             status := DocumentStatus.EMBEDDED } ∧
    (∀ c ∈ assignEmbeddings doc.chunks embeddings,
      optListTruthy c.embedding = true) ∧
    (embed_document st id embeddings).1.index = st.index := by
  have hres : embed_document st id embeddings =
      ({ st with
         documents := assocSet st.documents id
           { doc with
             chunks := assignEmbeddings doc.chunks embeddings
             status := DocumentStatus.EMBEDDED } },
        Except.ok true) := by
    rw [embed_document, hdoc]
    simp [hconf, List.isEmpty_iff, hne]
  refine ⟨by rw [hres], ?_, ?_, by rw [hres]⟩
  · rw [hres]
    exact assocGet_assocSet_self _ _ _
  · exact assignEmbeddings_all_truthy doc.chunks embeddings hlen hnonempty

/-- Witness for C2 amended on the concrete one-chunk document. -/
theorem embedded_status_invariant_witness :
    (embed_document stOneChunk "d" [[7]]).2 = Except.ok true ∧
    assocGet (embed_document stOneChunk "d" [[7]]).1.documents "d" =
      some { docOneChunk with
             chunks := assignEmbeddings docOneChunk.chunks [[7]]
             status := DocumentStatus.EMBEDDED } ∧
    (embed_document stOneChunk "d" [[7]]).1.index = stOneChunk.index := by
  have h := embedded_status_invariant stOneChunk "d" docOneChunk [[7]] rfl rfl
    (by decide) (by decide) (by decide)
  exact ⟨h.1, h.2.1, h.2.2.2⟩

/-- C7: a successful delete_document on a state with a configured vector db
removes the document from the registry and all of that document's chunk ids
from the vector index, and no subsequent search over the resulting index can
return any of those chunk ids. -/
theorem delete_document_removes_chunks (st : ServiceState) (id : String)
    (u : Option String) (doc : Document)
    (hvdb : st.vdbConfigured = true)
    (hdoc : get_document st id u = some doc) :
    (delete_document st id u).2 = true ∧
    assocGet (delete_document st id u).1.documents id = none ∧
    (∀ c ∈ doc.chunks,
      indexLookup (delete_document st id u).1.index c.id = none) ∧
    ∀ score k threshold caller r,
      r ∈ search_vectors (delete_document st id u).1.index score k threshold
        caller →
      ∀ c ∈ doc.chunks, r.chunk_id ≠ c.id := by
  have hdel : delete_document st id u =
      (let st1 :=
        if st.vdbConfigured && !doc.chunks.isEmpty then
          { st with
            index := indexDelete st.index (doc.chunks.map (fun c => c.id)) }
        else st
      ({ st1 with documents := assocDel st1.documents id }, true)) := by
    rw [delete_document, hdoc]
  have hlk : ∀ c ∈ doc.chunks,
      indexLookup (delete_document st id u).1.index c.id = none := by
    intro c hc
    rw [hdel]
    have hnonempty : doc.chunks.isEmpty = false := by
      cases hch : doc.chunks with
      | nil => rw [hch] at hc; cases hc
      | cons a l => rfl
    simp only [hvdb, hnonempty, Bool.not_false, Bool.and_self, if_true]
    exact indexLookup_indexDelete (by
      simp only [List.contains_iff_exists_mem_beq]
      exact ⟨c.id, List.mem_map_of_mem _ hc, by simp⟩)
  refine ⟨by rw [hdel], ?_, hlk, ?_⟩
  · rw [hdel]
    exact assocGet_assocDel_self _ _
  · intro score k threshold caller r hr c hc
    obtain ⟨v, hv, hrid⟩ := searchResult_from_index hr
    intro hcontra
    exact id_ne_of_indexLookup_none (hlk c hc) v hv (by rw [← hrid, hcontra])

/-- Witness for C7 on the concrete state where chunk "c1" is stored. -/
theorem delete_document_removes_chunks_witness :
    (delete_document stStored "d" (some "u1")).2 = true ∧
    assocGet (delete_document stStored "d" (some "u1")).1.documents "d" =
      none ∧
    indexLookup (delete_document stStored "d" (some "u1")).1.index "c1" =
      none := by
  have h := delete_document_removes_chunks stStored "d" (some "u1")
    docOneChunk rfl (by decide)
  refine ⟨h.1, h.2.1, ?_⟩
  exact h.2.2.1 { id := "c1", content := "hello", user_id := some "u1" }
    (by decide)
